import Mathlib

/-!
Verification of the volume-lifecycle control plane of the csi-powerstore
driver: a shallow embedding of the array registry (`pkg/array`), the
composite volume-handle codec (`ParseVolumeID`), the connectivity / IO
probe (`ValidateVolumeHostConnectivity`, `IsIOInProgress`) and the
replication orchestrator (`ExecuteAction`, `validateRSState`,
`DeleteStorageProtectionGroup`), with theorems settling the specification
claims about them.

Go strings are modelled as `List Char`; Go's `strings.Split` with a
one-character separator is modelled by `splitOnChar`; Go map reads with
their zero-value-on-miss semantics are modelled by `mapGetD`; external
collaborators (the gopowerstore client, `common.GetIPListFromString`) are
oracle parameters packaged in environment structures.
-/

namespace CsiPowerStore

/-- Go strings, modelled as lists of characters. -/
abbrev GoStr := List Char

/-- Shorthand for turning a Lean string literal into a `GoStr`. -/
def gs (s : String) : GoStr := s.toList

/-- Model of Go's `strings.Split(s, sep)` for a one-character separator:
always returns at least one (possibly empty) field. -/
def splitOnChar (sep : Char) : GoStr → List GoStr
  | [] => [[]]
  | c :: rest =>
    if c = sep then [] :: splitOnChar sep rest
    else
      match splitOnChar sep rest with
      | [] => [[c]]
      | h :: t => (c :: h) :: t

theorem splitOnChar_ne_nil (sep : Char) (s : GoStr) : splitOnChar sep s ≠ [] := by
  induction s with
  | nil => simp [splitOnChar]
  | cons c rest ih =>
    simp only [splitOnChar]
    split
    · simp
    · cases hr : splitOnChar sep rest with
      | nil => simp
      | cons h t => simp

theorem splitOnChar_length_pos (sep : Char) (s : GoStr) :
    0 < (splitOnChar sep s).length :=
  List.length_pos.mpr (splitOnChar_ne_nil sep s)

/-- Splitting a separator-free string yields the single field back. -/
theorem splitOnChar_of_not_mem {sep : Char} {s : GoStr} (h : sep ∉ s) :
    splitOnChar sep s = [s] := by
  induction s with
  | nil => rfl
  | cons c rest ih =>
    have hc : c ≠ sep := fun hcs => h (hcs ▸ List.mem_cons_self c rest)
    have hrest : sep ∉ rest := fun hm => h (List.mem_cons_of_mem c hm)
    simp only [splitOnChar, if_neg hc, ih hrest]

/-- Splitting distributes over the first separator occurrence when the
prefix is separator-free. -/
theorem splitOnChar_append {sep : Char} {a : GoStr} (b : GoStr) (h : sep ∉ a) :
    splitOnChar sep (a ++ sep :: b) = a :: splitOnChar sep b := by
  induction a with
  | nil => simp [splitOnChar]
  | cons c rest ih =>
    have hc : c ≠ sep := fun hcs => h (hcs ▸ List.mem_cons_self c rest)
    have hrest : sep ∉ rest := fun hm => h (List.mem_cons_of_mem c hm)
    have ih2 := ih hrest
    simp only [List.cons_append, splitOnChar, if_neg hc, List.append_eq] at ih2 ⊢
    rw [ih2]

/-- A string containing the separator splits into at least two fields. -/
theorem splitOnChar_length_of_mem {sep : Char} {s : GoStr} (h : sep ∈ s) :
    2 ≤ (splitOnChar sep s).length := by
  induction s with
  | nil => cases h
  | cons c rest ih =>
    simp only [splitOnChar]
    by_cases hc : c = sep
    · simp only [if_pos hc, List.length_cons]
      have := splitOnChar_length_pos sep rest
      omega
    · have hm : sep ∈ rest := by
        rcases List.mem_cons.mp h with h1 | h1
        · exact absurd h1.symm hc
        · exact h1
      simp only [if_neg hc]
      cases hr : splitOnChar sep rest with
      | nil => exact absurd hr (splitOnChar_ne_nil sep rest)
      | cons hd tl =>
        have := ih hm
        rw [hr] at this
        simpa using this

/-- Go map read with zero-value semantics: a missing key yields `""`. -/
def mapGetD (m : List (GoStr × GoStr)) (k : GoStr) : GoStr :=
  match m.find? (fun p => p.1 == k) with
  | some p => p.2
  | none => []

/-- Structured error surfaced by the gopowerstore client: whether the error
value is a `gopowerstore.APIError` and, if so, whether `NotFound()` holds. -/
structure GoAPIError where
  isAPIError : Bool
  notFound : Bool
deriving DecidableEq

/-- Outcome of `array.ParseVolumeID`: the six named return values.
Go returns the field tuple together with an error value; `err = none`
models a nil error. -/
structure ParsedVolID where
  localVolumeID : GoStr
  arrayID : GoStr
  protocol : GoStr
  remoteVolumeID : GoStr
  remoteArrayID : GoStr
deriving DecidableEq

/-- Error values `ParseVolumeID` can return: the empty-handle
`codes.FailedPrecondition` status, a pass-through `gopowerstore.APIError`
from the legacy `GetFS` probe when `NotFound()`, or the wrapping
`codes.Unknown` status for any other legacy-probe failure. -/
inductive ParseErr where
  | emptyHandle
  | apiError (e : GoAPIError)
  | unknownFailure
deriving DecidableEq

/-- Result of running `ParseVolumeID`: either the Go function panics on an
out-of-range slice index, or it returns the six-value tuple (fields plus an
optional error). -/
inductive ParseOutcome where
  | panicked
  | result (r : ParsedVolID) (err : Option ParseErr)
deriving DecidableEq

/-- Environment of `ParseVolumeID`: the default array's GlobalID, the
`common.GetIPListFromString` helper (first extracted IP, if any), the
package-level `IPToArray` index, and the default array client's
`GetVolume` / `GetFS` lookups used for legacy protocol sniffing. -/
structure ParseEnv where
  defaultArrayID : GoStr
  getIPList : GoStr → Option GoStr
  ipToArray : List (GoStr × GoStr)
  getVolume : GoStr → Except GoAPIError Unit
  getFS : GoStr → Except GoAPIError Unit

/-- Shared tail of `ParseVolumeID`: parse the second portion of a metro
volume handle. `remoteVolumeHandle[1]` is read without a length check, so a
remote segment with no `/` is an out-of-range access (panic). -/
def parseRemote (volumeHandles : List GoStr)
    (localVolumeID arrayID protocol : GoStr) : ParseOutcome :=
  if 1 < volumeHandles.length then
    let remoteVolumeHandle := splitOnChar '/' (volumeHandles.getD 1 [])
    if remoteVolumeHandle.length < 2 then ParseOutcome.panicked
    else
      ParseOutcome.result
        ⟨localVolumeID, arrayID, protocol,
          remoteVolumeHandle.headD [], remoteVolumeHandle.getD 1 []⟩ none
  else ParseOutcome.result ⟨localVolumeID, arrayID, protocol, [], []⟩ none

/-- Embedding of `array.ParseVolumeID`. `vc` models the volume capability:
`some fsType` stands for a non-nil capability with a non-nil mount (whose
`FsType` is `fsType`), anything else behaves as `none`. The local segment's
`protocol` field `localVolumeHandle[2]` is read without a length check, so
a two-field local segment is an out-of-range access (panic). -/
def parseVolumeID (env : ParseEnv) (vc : Option GoStr) (volumeHandle : GoStr) :
    ParseOutcome :=
  if volumeHandle = [] then
    ParseOutcome.result ⟨[], [], [], [], []⟩ (some ParseErr.emptyHandle)
  else
    let volumeHandles := splitOnChar ':' volumeHandle
    let localVolumeHandle := splitOnChar '/' (volumeHandles.headD [])
    let localVolumeID := localVolumeHandle.headD []
    if localVolumeHandle.length = 1 then
      -- Legacy bare-ID support: classify through the default array.
      match vc with
      | some fsType =>
          parseRemote volumeHandles localVolumeID env.defaultArrayID
            (if fsType = gs "nfs" then gs "nfs" else gs "scsi")
      | none =>
          match env.getVolume localVolumeID with
          | Except.ok _ =>
              parseRemote volumeHandles localVolumeID env.defaultArrayID (gs "scsi")
          | Except.error _ =>
              match env.getFS localVolumeID with
              | Except.ok _ =>
                  parseRemote volumeHandles localVolumeID env.defaultArrayID (gs "nfs")
              | Except.error e =>
                  if e.isAPIError && e.notFound then
                    ParseOutcome.result
                      ⟨localVolumeID, env.defaultArrayID, [], [], []⟩
                      (some (ParseErr.apiError e))
                  else
                    ParseOutcome.result
                      ⟨localVolumeID, env.defaultArrayID, [], [], []⟩
                      (some ParseErr.unknownFailure)
    else if localVolumeHandle.length < 3 then ParseOutcome.panicked
    else
      let ref := localVolumeHandle.getD 1 []
      let arrayID :=
        match env.getIPList ref with
        | some ip => mapGetD env.ipToArray ip
        | none => ref
      parseRemote volumeHandles localVolumeID arrayID (localVolumeHandle.getD 2 [])

/-- The wire-format encoder (the inverse join of the decode grammar
`localID/arrayRef/protocol[:remoteID/remoteArrayID]`). -/
def encodeHandle (lid ref proto : GoStr) (remote : Option (GoStr × GoStr)) : GoStr :=
  lid ++ ('/' :: (ref ++ ('/' :: proto))) ++
    (match remote with
     | none => []
     | some (rid, raid) => ':' :: (rid ++ ('/' :: raid)))

/-- Re-encoding of a decoded handle: the remote segment is emitted only
when a remote pair is present (both remote fields empty means no metro
pair). -/
def encodeParsed (r : ParsedVolID) : GoStr :=
  r.localVolumeID ++ ('/' :: (r.arrayID ++ ('/' :: r.protocol))) ++
    (if r.remoteVolumeID = [] ∧ r.remoteArrayID = [] then []
     else ':' :: (r.remoteVolumeID ++ ('/' :: r.remoteArrayID)))

/-- How the decoder resolves the `arrayRef` field: an IP-looking ref goes
through the `IPToArray` index (zero value `""` on a miss), anything else is
passed through verbatim, with no registry membership check. -/
def resolveArrayRef (env : ParseEnv) (ref : GoStr) : GoStr :=
  match env.getIPList ref with
  | some ip => mapGetD env.ipToArray ip
  | none => ref

theorem parseVolumeID_structured (env : ParseEnv) (vc : Option GoStr)
    (lid ref proto : GoStr) (remote : Option (GoStr × GoStr))
    (hlid : '/' ∉ lid ∧ ':' ∉ lid)
    (href : '/' ∉ ref ∧ ':' ∉ ref)
    (hproto : '/' ∉ proto ∧ ':' ∉ proto)
    (hrem : match remote with
      | none => True
      | some (rid, raid) => ('/' ∉ rid ∧ ':' ∉ rid) ∧ ('/' ∉ raid ∧ ':' ∉ raid)) :
    parseVolumeID env vc (encodeHandle lid ref proto remote) =
      ParseOutcome.result
        ⟨lid, resolveArrayRef env ref, proto,
          (remote.map Prod.fst).getD [], (remote.map Prod.snd).getD []⟩ none := by
  have hlocColon : ':' ∉ lid ++ ('/' :: (ref ++ ('/' :: proto))) := by
    intro hm
    rcases List.mem_append.mp hm with h | h
    · exact hlid.2 h
    · rcases List.mem_cons.mp h with h | h
      · exact absurd h (by decide)
      · rcases List.mem_append.mp h with h | h
        · exact href.2 h
        · rcases List.mem_cons.mp h with h | h
          · exact absurd h (by decide)
          · exact hproto.2 h
  have hlocSplit :
      splitOnChar '/' (lid ++ ('/' :: (ref ++ ('/' :: proto)))) = [lid, ref, proto] := by
    rw [splitOnChar_append _ hlid.1, splitOnChar_append _ href.1,
      splitOnChar_of_not_mem hproto.1]
  cases remote with
  | none =>
    have hne : encodeHandle lid ref proto none ≠ [] := by
      simp [encodeHandle]
    have hsplit : splitOnChar ':' (encodeHandle lid ref proto none) =
        [lid ++ ('/' :: (ref ++ ('/' :: proto)))] := by
      simpa [encodeHandle] using splitOnChar_of_not_mem hlocColon
    rw [parseVolumeID, if_neg hne]
    simp only [hsplit, List.headD_cons, hlocSplit]
    simp [parseRemote, resolveArrayRef]
  | some p =>
    obtain ⟨rid, raid⟩ := p
    obtain ⟨hrid, hraid⟩ := hrem
    have hremColon : ':' ∉ rid ++ ('/' :: raid) := by
      intro hm
      rcases List.mem_append.mp hm with h | h
      · exact hrid.2 h
      · rcases List.mem_cons.mp h with h | h
        · exact absurd h (by decide)
        · exact hraid.2 h
    have hne : encodeHandle lid ref proto (some (rid, raid)) ≠ [] := by
      simp [encodeHandle]
    have hsplit : splitOnChar ':' (encodeHandle lid ref proto (some (rid, raid))) =
        [lid ++ ('/' :: (ref ++ ('/' :: proto))), rid ++ ('/' :: raid)] := by
      show splitOnChar ':'
          ((lid ++ ('/' :: (ref ++ ('/' :: proto)))) ++ ':' :: (rid ++ ('/' :: raid))) = _
      rw [splitOnChar_append _ hlocColon, splitOnChar_of_not_mem hremColon]
    have hremSplit : splitOnChar '/' (rid ++ ('/' :: raid)) = [rid, raid] := by
      rw [splitOnChar_append _ hrid.1, splitOnChar_of_not_mem hraid.1]
    rw [parseVolumeID, if_neg hne]
    simp only [hsplit, List.headD_cons, hlocSplit]
    simp [parseRemote, hremSplit, resolveArrayRef]

/-- C2: for every well-formed non-legacy volume handle of the form
`localID/arrayID/protocol`, optionally followed by
`:remoteID/remoteArrayID`, decoding with `ParseVolumeID` and re-encoding
the resulting fields with the inverse join reproduces the handle
byte-identically. -/
theorem parse_encode_roundTrip (env : ParseEnv) (vc : Option GoStr)
    (lid ref proto : GoStr) (remote : Option (GoStr × GoStr))
    (hlid : '/' ∉ lid ∧ ':' ∉ lid)
    (href : '/' ∉ ref ∧ ':' ∉ ref)
    (hproto : '/' ∉ proto ∧ ':' ∉ proto)
    (hip : env.getIPList ref = none)
    (hrem : match remote with
      | none => True
      | some (rid, raid) =>
          (('/' ∉ rid ∧ ':' ∉ rid) ∧ ('/' ∉ raid ∧ ':' ∉ raid)) ∧ rid ≠ []) :
    ∃ r : ParsedVolID,
      parseVolumeID env vc (encodeHandle lid ref proto remote) =
        ParseOutcome.result r none ∧
      encodeParsed r = encodeHandle lid ref proto remote := by
  have hrefR : resolveArrayRef env ref = ref := by
    simp [resolveArrayRef, hip]
  cases remote with
  | none =>
    refine ⟨_, parseVolumeID_structured env vc lid ref proto none hlid href hproto
      trivial, ?_⟩
    simp [encodeParsed, encodeHandle, hrefR]
  | some p =>
    obtain ⟨rid, raid⟩ := p
    obtain ⟨hr, hridNe⟩ := hrem
    refine ⟨_, parseVolumeID_structured env vc lid ref proto (some (rid, raid))
      hlid href hproto hr, ?_⟩
    simp [encodeParsed, encodeHandle, hrefR, hridNe]

/-- Decode environment used by concrete instances: an empty `IPToArray`
registry index, `192.168.0.1` recognised as an IP by the
`GetIPListFromString` oracle, and legacy lookups that fail with NotFound. -/
def envW : ParseEnv :=
  { defaultArrayID := gs "PSdefault0000"
    getIPList := fun s => if s = gs "192.168.0.1" then some (gs "192.168.0.1") else none
    ipToArray := []
    getVolume := fun _ => Except.error ⟨true, true⟩
    getFS := fun _ => Except.error ⟨true, true⟩ }

/-- Witness for C2: the metro handle
`9f840c56/PSabcdef0123/scsi:9f840c56/PS0123abcdef` round-trips. -/
theorem parse_encode_roundTrip_witness :
    ∃ r : ParsedVolID,
      parseVolumeID envW none
        (encodeHandle (gs "9f840c56") (gs "PSabcdef0123") (gs "scsi")
          (some (gs "9f840c56", gs "PS0123abcdef"))) =
        ParseOutcome.result r none ∧
      encodeParsed r =
        encodeHandle (gs "9f840c56") (gs "PSabcdef0123") (gs "scsi")
          (some (gs "9f840c56", gs "PS0123abcdef")) :=
  parse_encode_roundTrip envW none (gs "9f840c56") (gs "PSabcdef0123") (gs "scsi")
    (some (gs "9f840c56", gs "PS0123abcdef"))
    (by decide) (by decide) (by decide) (by decide) (by decide)

/-- Counterexample for C3: decoding a handle whose array reference does
not resolve to any known array succeeds with a nil error instead of
failing. The IP `192.168.0.1` is absent from the registry index, yet
decoding returns success with an empty array ID; the unknown GlobalID
`PSunknown9999` is passed through unresolved, also with success. -/
theorem parseVolumeID_unknownRef_counterexample :
    parseVolumeID envW none (gs "1cd254s/192.168.0.1/scsi") =
      ParseOutcome.result ⟨gs "1cd254s", [], gs "scsi", [], []⟩ none ∧
    parseVolumeID envW none (gs "1cd254s/PSunknown9999/scsi") =
      ParseOutcome.result ⟨gs "1cd254s", gs "PSunknown9999", gs "scsi", [], []⟩ none := by
  exact ⟨rfl, rfl⟩

/-- C3 (amended): decoding never validates the array reference against the
registry of known GlobalIDs. A non-IP reference is passed through verbatim
and an IP reference is mapped through the `IPToArray` index with the Go
zero value `""` on a miss; in both cases decoding succeeds with a nil
error. The unknown-array `InternalError` arises only later, when callers
look the returned ID up in the registry. -/
theorem parseVolumeID_no_registry_check (env : ParseEnv) (vc : Option GoStr)
    (lid ref proto : GoStr)
    (hlid : '/' ∉ lid ∧ ':' ∉ lid)
    (href : '/' ∉ ref ∧ ':' ∉ ref)
    (hproto : '/' ∉ proto ∧ ':' ∉ proto) :
    parseVolumeID env vc (encodeHandle lid ref proto none) =
      ParseOutcome.result ⟨lid, resolveArrayRef env ref, proto, [], []⟩ none :=
  parseVolumeID_structured env vc lid ref proto none hlid href hproto trivial

/-- Witness for the amended C3: the unknown GlobalID handle decodes to a
success carrying the reference verbatim. -/
theorem parseVolumeID_no_registry_check_witness :
    parseVolumeID envW none (encodeHandle (gs "1cd254s") (gs "PSunknown9999") (gs "scsi") none) =
      ParseOutcome.result
        ⟨gs "1cd254s", resolveArrayRef envW (gs "PSunknown9999"), gs "scsi", [], []⟩ none :=
  parseVolumeID_no_registry_check envW none (gs "1cd254s") (gs "PSunknown9999") (gs "scsi")
    (by decide) (by decide) (by decide)

/-- C8: a bare (single-field) handle with no volume capability resolves the
default array and classifies the volume by a block-volume lookup first
(success means `scsi`), then a filesystem lookup (success means `nfs`);
when both fail, the error surfaces the underlying failure, with a NotFound
`APIError` passed through as-is and any other failure wrapped as a
`codes.Unknown` status. -/
theorem parseVolumeID_bare_legacy (env : ParseEnv) (id : GoStr)
    (hne : id ≠ []) (hslash : '/' ∉ id) (hcolon : ':' ∉ id) :
    parseVolumeID env none id =
      (match env.getVolume id with
       | Except.ok _ =>
           ParseOutcome.result ⟨id, env.defaultArrayID, gs "scsi", [], []⟩ none
       | Except.error _ =>
           match env.getFS id with
           | Except.ok _ =>
               ParseOutcome.result ⟨id, env.defaultArrayID, gs "nfs", [], []⟩ none
           | Except.error e =>
               if e.isAPIError && e.notFound then
                 ParseOutcome.result ⟨id, env.defaultArrayID, [], [], []⟩
                   (some (ParseErr.apiError e))
               else
                 ParseOutcome.result ⟨id, env.defaultArrayID, [], [], []⟩
                   (some ParseErr.unknownFailure)) := by
  rw [parseVolumeID, if_neg hne]
  simp only [splitOnChar_of_not_mem hcolon, List.headD_cons,
    splitOnChar_of_not_mem hslash, List.length_cons, List.length_nil]
  cases hv : env.getVolume id with
  | ok u => simp [parseRemote, splitOnChar_of_not_mem hcolon]
  | error e1 =>
    cases hf : env.getFS id with
    | ok u => simp [parseRemote, splitOnChar_of_not_mem hcolon]
    | error e2 => by_cases hnf : e2.isAPIError && e2.notFound <;> simp [hnf]

/-- Witness for C8: a bare legacy ID against `envW`, whose lookups both
fail with NotFound, surfaces the NotFound `APIError`. -/
theorem parseVolumeID_bare_legacy_witness :
    parseVolumeID envW none (gs "1cd254s") =
      ParseOutcome.result ⟨gs "1cd254s", gs "PSdefault0000", [], [], []⟩
        (some (ParseErr.apiError ⟨true, true⟩)) :=
  parseVolumeID_bare_legacy envW (gs "1cd254s") (by decide) (by decide) (by decide)

/-- Counterexample for C10: `ParseVolumeID` is not total. A local segment
with exactly two fields reads `localVolumeHandle[2]` out of range, and a
metro remote segment with no `/` reads `remoteVolumeHandle[1]` out of
range; both inputs panic instead of returning fields or an error. -/
theorem parseVolumeID_panics_counterexample :
    parseVolumeID envW none (gs "id/array") = ParseOutcome.panicked ∧
    parseVolumeID envW none (gs "id/array/scsi:remote") = ParseOutcome.panicked := by
  exact ⟨rfl, rfl⟩

theorem parseRemote_ne_panicked (vhs : List GoStr) (lid aid proto : GoStr)
    (h2 : 1 < vhs.length → '/' ∈ vhs.getD 1 []) :
    parseRemote vhs lid aid proto ≠ ParseOutcome.panicked := by
  unfold parseRemote
  split
  · next hlen =>
    have := splitOnChar_length_of_mem (h2 hlen)
    rw [if_neg (by omega)]
    simp
  · simp

/-- C10 (amended): `ParseVolumeID` returns decoded fields or an error —
never an out-of-range access — on every input whose local segment does not
have exactly two `/`-separated fields and whose remote segment, when
present, contains a `/`. On `id/array` and `id/array/scsi:remote` it
performs out-of-range accesses (panics). -/
theorem parseVolumeID_no_panic (env : ParseEnv) (vc : Option GoStr) (h : GoStr)
    (h1 : (splitOnChar '/' ((splitOnChar ':' h).headD [])).length ≠ 2)
    (h2 : 1 < (splitOnChar ':' h).length → '/' ∈ (splitOnChar ':' h).getD 1 []) :
    parseVolumeID env vc h ≠ ParseOutcome.panicked := by
  by_cases hne : h = []
  · subst hne
    simp [parseVolumeID]
  · rw [parseVolumeID, if_neg hne]
    simp only []
    by_cases hl1 : (splitOnChar '/' ((splitOnChar ':' h).headD [])).length = 1
    · rw [if_pos hl1]
      cases vc with
      | some fsType => exact parseRemote_ne_panicked _ _ _ _ h2
      | none =>
        cases env.getVolume ((splitOnChar '/' ((splitOnChar ':' h).headD [])).headD []) with
        | ok u => exact parseRemote_ne_panicked _ _ _ _ h2
        | error e1 =>
          cases env.getFS ((splitOnChar '/' ((splitOnChar ':' h).headD [])).headD []) with
          | ok u => exact parseRemote_ne_panicked _ _ _ _ h2
          | error e2 =>
            by_cases hnf : e2.isAPIError && e2.notFound <;> simp [hnf]
    · rw [if_neg hl1]
      have h3 : ¬ (splitOnChar '/' ((splitOnChar ':' h).headD [])).length < 3 := by
        have := splitOnChar_length_pos '/' ((splitOnChar ':' h).headD [])
        omega
      rw [if_neg h3]
      exact parseRemote_ne_panicked _ _ _ _ h2

/-- Witness for the amended C10: a three-field local segment with a
slash-containing remote segment decodes without a panic. -/
theorem parseVolumeID_no_panic_witness :
    parseVolumeID envW none (gs "id/array/scsi:rem/arr") ≠ ParseOutcome.panicked :=
  parseVolumeID_no_panic envW none (gs "id/array/scsi:rem/arr") (by decide) (by decide)

/-! ## Replication orchestrator: `validateRSState` and `ExecuteAction` -/

/-- The `gopowerstore.ActionType` values dispatched by the controller. -/
inductive RsActionType where
  | failover
  | reprotect
  | pause
  | resume
  | sync
deriving DecidableEq

def rsStateOk : GoStr := gs "OK"

def rsStatePaused : GoStr := gs "Paused"

def rsStatePausedForMigration : GoStr := gs "Paused_For_Migration"

def rsStatePausedForNdu : GoStr := gs "Paused_For_NDU"

def rsStateSystemPaused : GoStr := gs "System_Paused"

def rsStateFailingOver : GoStr := gs "Failing_Over"

def rsStateFailedOver : GoStr := gs "Failed_Over"

/-- Embedding of `validateRSState`: given the session state and the
requested action, returns `(inDesiredState, actionRequired)`. The Go
function's third return value (`resErr`) is always nil and is omitted. -/
def validateRSState (state : GoStr) (action : RsActionType) : Bool × Bool :=
  match action with
  | RsActionType.resume =>
      if state = rsStateOk then (true, false) else (false, true)
  | RsActionType.reprotect =>
      if state = rsStateOk then (true, false) else (false, true)
  | RsActionType.pause =>
      if state = rsStatePaused ∨ state = rsStatePausedForMigration ∨
          state = rsStatePausedForNdu then (true, false)
      else (false, true)
  | RsActionType.failover =>
      if state = rsStateFailingOver then (false, false)
      else if state = rsStateFailedOver then (true, false)
      else (false, true)
  | RsActionType.sync => (false, true)

/-- The `gopowerstore.FailoverParams` passed on failover actions. -/
structure FailoverParams where
  isPlanned : Bool
  reverse : Bool
deriving DecidableEq

/-- Error surfaced by `ExecuteActionOnReplicationSession`: whether it is a
`gopowerstore.APIError` and whether `UnableToFailoverFromDestination()`
holds. -/
structure RsCallError where
  isAPIError : Bool
  unableToFailoverFromDestination : Bool
deriving DecidableEq

/-- Errors the package-level `ExecuteAction` can return: the
`codes.Aborted` "still executing previous action" status or the
`codes.Internal` translation of the destination-role failover failure. -/
inductive ExecErr where
  | aborted
  | internalFailover
deriving DecidableEq

/-- Embedding of the package-level `ExecuteAction`: validates the session
state and, when an action is required, issues it to the array through
`call`. The second component is the list of array calls issued (action and
failover parameters), so that "without issuing any call" is observable. -/
def executeActionOnRS (state : GoStr) (action : RsActionType)
    (fp : Option FailoverParams)
    (call : RsActionType → Option FailoverParams → Except RsCallError Unit) :
    Except ExecErr Unit × List (RsActionType × Option FailoverParams) :=
  let v := validateRSState state action
  if v.1 then (Except.ok (), [])
  else if v.2 = false then (Except.error ExecErr.aborted, [])
  else
    match call action fp with
    | Except.ok _ => (Except.ok (), [(action, fp)])
    | Except.error e =>
        if e.isAPIError && e.unableToFailoverFromDestination then
          (Except.error ExecErr.internalFailover, [(action, fp)])
        else (Except.ok (), [(action, fp)])

/-- The CSI replication extension action types accepted by
`Service.ExecuteAction`'s switch. -/
inductive CsiActionType where
  | failoverRemote
  | unplannedFailoverLocal
  | suspend
  | resumeRequest
  | syncRequest
  | reprotectLocal
  | unsupported
deriving DecidableEq

/-- Embedding of the `switch action` block of `Service.ExecuteAction`:
maps the requested CSI action to the gopowerstore action and its
parameters; `none` models the `codes.Unknown` rejection of unsupported
actions. -/
def actionSwitch : CsiActionType → Option (RsActionType × Option FailoverParams)
  | CsiActionType.failoverRemote =>
      some (RsActionType.failover, some ⟨true, false⟩)
  | CsiActionType.unplannedFailoverLocal =>
      some (RsActionType.failover, some ⟨false, false⟩)
  | CsiActionType.suspend => some (RsActionType.pause, none)
  | CsiActionType.resumeRequest => some (RsActionType.resume, none)
  | CsiActionType.syncRequest => some (RsActionType.sync, none)
  | CsiActionType.reprotectLocal => some (RsActionType.reprotect, none)
  | CsiActionType.unsupported => none

/-- Counterexample for C1: when the array call fails with an error other
than the destination-role failover failure (here a plain `APIError`), the
package-level `ExecuteAction` swallows the error and reports success, so
the result of the array call is not propagated to the caller. -/
theorem executeAction_swallows_error_counterexample :
    executeActionOnRS rsStateOk RsActionType.pause none
        (fun _ _ => Except.error ⟨true, false⟩) =
      (Except.ok (), [(RsActionType.pause, none)]) := by
  exact rfl

/-- C1 (amended): whenever the session is neither in the desired terminal
state nor mid-transition, the action is issued to the array exactly once
with its action-specific parameters (Failover carries the planned/reverse
flags set by the switch); a successful call reports success and the
array's "cannot failover from a destination role" failure is translated
into an internal error, but any other array-call failure is logged and
swallowed, with the call reporting success. -/
theorem executeAction_issues_action (state : GoStr) (action : RsActionType)
    (fp : Option FailoverParams)
    (call : RsActionType → Option FailoverParams → Except RsCallError Unit)
    (hreq : validateRSState state action = (false, true)) :
    executeActionOnRS state action fp call =
      ((match call action fp with
        | Except.ok _ => Except.ok ()
        | Except.error e =>
            if e.isAPIError && e.unableToFailoverFromDestination then
              Except.error ExecErr.internalFailover
            else Except.ok ()),
        [(action, fp)]) ∧
    actionSwitch CsiActionType.failoverRemote =
      some (RsActionType.failover, some ⟨true, false⟩) ∧
    actionSwitch CsiActionType.unplannedFailoverLocal =
      some (RsActionType.failover, some ⟨false, false⟩) := by
  refine ⟨?_, rfl, rfl⟩
  rw [executeActionOnRS, hreq]
  cases call action fp with
  | ok u => rfl
  | error e => by_cases hnf : e.isAPIError && e.unableToFailoverFromDestination <;> simp [hnf]

/-- Witness for the amended C1: a planned failover on a synchronizing
session issues exactly one failover call with the planned flag set and
succeeds. -/
theorem executeAction_issues_action_witness :
    executeActionOnRS (gs "Synchronizing") RsActionType.failover
        (some ⟨true, false⟩) (fun _ _ => Except.ok ()) =
      (Except.ok (), [(RsActionType.failover, some ⟨true, false⟩)]) ∧
    actionSwitch CsiActionType.failoverRemote =
      some (RsActionType.failover, some ⟨true, false⟩) ∧
    actionSwitch CsiActionType.unplannedFailoverLocal =
      some (RsActionType.failover, some ⟨false, false⟩) :=
  executeAction_issues_action (gs "Synchronizing") RsActionType.failover
    (some ⟨true, false⟩) (fun _ _ => Except.ok ()) (by decide)

/-- Counterexample for C4: `System_Paused` is a Paused variant of the
session-state enum, yet a Pause request on a `System_Paused` session is
not treated as already-in-desired-state — the pause action is issued to
the array. -/
theorem pause_systemPaused_counterexample :
    executeActionOnRS rsStateSystemPaused RsActionType.pause none
        (fun _ _ => Except.ok ()) =
      (Except.ok (), [(RsActionType.pause, none)]) := by
  exact rfl

/-- C4 (amended): `Resume` on a session already `OK` succeeds without any
array call; `Pause` on a session in `Paused`, `Paused_For_Migration` or
`Paused_For_NDU` (but not `System_Paused`) succeeds without any call;
`Failover` on a `Failing_Over` session returns the retryable
`codes.Aborted` precondition failure without any call; `Failover` on a
`Failed_Over` session succeeds without any call. -/
theorem validateRSState_idempotent_actions
    (call : RsActionType → Option FailoverParams → Except RsCallError Unit)
    (fp : Option FailoverParams) :
    executeActionOnRS rsStateOk RsActionType.resume fp call = (Except.ok (), []) ∧
    executeActionOnRS rsStatePaused RsActionType.pause fp call = (Except.ok (), []) ∧
    executeActionOnRS rsStatePausedForMigration RsActionType.pause fp call =
      (Except.ok (), []) ∧
    executeActionOnRS rsStatePausedForNdu RsActionType.pause fp call =
      (Except.ok (), []) ∧
    executeActionOnRS rsStateFailingOver RsActionType.failover fp call =
      (Except.error ExecErr.aborted, []) ∧
    executeActionOnRS rsStateFailedOver RsActionType.failover fp call =
      (Except.ok (), []) := by
  refine ⟨rfl, rfl, rfl, rfl, rfl, rfl⟩

/-! ## Replication orchestrator: `DeleteStorageProtectionGroup` -/

/-- The fields of `gopowerstore.VolumeGroup` that the deletion flow reads. -/
structure VolumeGroupRec where
  id : GoStr
  protectionPolicyID : GoStr
deriving DecidableEq

/-- The fields of `gopowerstore.ProtectionPolicy` that the deletion flow
reads: the owned volumes and volume groups. -/
structure ProtectionPolicyRec where
  id : GoStr
  volumes : List GoStr
  volumeGroups : List GoStr
deriving DecidableEq

/-- The fields of `gopowerstore.ReplicationRule` that the deletion flow
reads: the protection policies that still reference the rule. -/
structure ReplicationRuleRec where
  id : GoStr
  protectionPolicies : List GoStr
deriving DecidableEq

/-- The gopowerstore client calls issued by
`DeleteStorageProtectionGroup`, as oracles. Each returns the Go value
(zero value on failure) together with an optional error. -/
structure SPGClient where
  getVolumeGroup : GoStr → VolumeGroupRec × Option GoAPIError
  modifyVolumeGroup : GoStr → Option GoAPIError
  deleteVolumeGroup : GoStr → Option GoAPIError
  getProtectionPolicyByName : GoStr → ProtectionPolicyRec × Option GoAPIError
  deleteProtectionPolicy : GoStr → Option GoAPIError
  getReplicationRuleByName : GoStr → ReplicationRuleRec × Option GoAPIError
  deleteReplicationRule : GoStr → Option GoAPIError

/-- The error pattern used by every step of the deletion flow:
`if apiErr, ok := err.(gopowerstore.APIError); ok && !apiErr.NotFound()`.
A nil error, a non-`APIError` error, and a NotFound `APIError` all pass
(not-found means success); only a non-NotFound `APIError` is fatal. -/
def hardFail : Option GoAPIError → Bool
  | none => false
  | some e => e.isAPIError && !e.notFound

/-- Errors returned by `DeleteStorageProtectionGroup` (`codes.Internal`
statuses, identified by their message). -/
inductive DelErr where
  | getVGFailed
  | unassignFailed
  | deleteVGFailed
  | missingVGName
  | getPPFailed
  | deletePPFailed
  | getRRFailed
  | deleteRRFailed
deriving DecidableEq

/-- Trace of the destructive array calls issued by one
`DeleteStorageProtectionGroup` run. -/
structure DeleteTrace where
  unassignedPolicy : List GoStr
  deletedVolumeGroups : List GoStr
  deletedPolicies : List GoStr
  deletedRules : List GoStr
deriving DecidableEq

/-- The protection-policy name derived from the volume-group name
(`"pp-" + vgName`). -/
def ppName (vgName : GoStr) : GoStr := gs "pp-" ++ vgName

/-- The replication-rule name derived from the volume-group name
(`"rr-" + vgName`). -/
def rrName (vgName : GoStr) : GoStr := gs "rr-" ++ vgName

/-- The volume-group block of `DeleteStorageProtectionGroup`: when the
group still exists, un-assign its protection policy (when one is assigned)
and delete the group, tolerating not-found at each step. Returns the
result and the (unassign calls, delete calls) issued. -/
def deleteVGPhase (c : SPGClient) (groupID : GoStr) :
    Except DelErr Unit × (List GoStr × List GoStr) :=
  let vg := (c.getVolumeGroup groupID).1
  if hardFail (c.getVolumeGroup groupID).2 then
    (Except.error DelErr.getVGFailed, ([], []))
  else if vg.id ≠ [] then
    if vg.protectionPolicyID ≠ [] then
      if hardFail (c.modifyVolumeGroup groupID) then
        (Except.error DelErr.unassignFailed, ([groupID], []))
      else if hardFail (c.deleteVolumeGroup groupID) then
        (Except.error DelErr.deleteVGFailed, ([groupID], [groupID]))
      else (Except.ok (), ([groupID], [groupID]))
    else if hardFail (c.deleteVolumeGroup groupID) then
      (Except.error DelErr.deleteVGFailed, ([], [groupID]))
    else (Except.ok (), ([], [groupID]))
  else (Except.ok (), ([], []))

/-- The protection-policy block of `DeleteStorageProtectionGroup`: the
policy is deleted only when it exists and owns zero volumes and zero
volume groups. Returns the result and the delete calls issued. -/
def deletePPPhase (c : SPGClient) (name : GoStr) :
    Except DelErr Unit × List GoStr :=
  let pp := (c.getProtectionPolicyByName (ppName name)).1
  if hardFail (c.getProtectionPolicyByName (ppName name)).2 then
    (Except.error DelErr.getPPFailed, [])
  else if pp.id ≠ [] ∧ pp.volumes = [] ∧ pp.volumeGroups = [] then
    if hardFail (c.deleteProtectionPolicy pp.id) then
      (Except.error DelErr.deletePPFailed, [pp.id])
    else (Except.ok (), [pp.id])
  else (Except.ok (), [])

/-- The replication-rule block of `DeleteStorageProtectionGroup`: the rule
is deleted only when it exists and zero protection policies reference it.
Returns the result and the delete calls issued. -/
def deleteRRPhase (c : SPGClient) (name : GoStr) :
    Except DelErr Unit × List GoStr :=
  let rr := (c.getReplicationRuleByName (rrName name)).1
  if hardFail (c.getReplicationRuleByName (rrName name)).2 then
    (Except.error DelErr.getRRFailed, [])
  else if rr.id ≠ [] ∧ rr.protectionPolicies = [] then
    if hardFail (c.deleteReplicationRule rr.id) then
      (Except.error DelErr.deleteRRFailed, [rr.id])
    else (Except.ok (), [rr.id])
  else (Except.ok (), [])

/-- Embedding of `Service.DeleteStorageProtectionGroup` from the volume
group fetch onward, composed from the three source blocks in source order:
volume-group teardown, protection-policy deletion, replication-rule
deletion. `vgName` models the `VolumeGroupName` protection-group attribute
(`none` = missing key); the trace collects the destructive calls issued. -/
def deleteStorageProtectionGroup (c : SPGClient) (groupID : GoStr)
    (vgName : Option GoStr) : Except DelErr Unit × DeleteTrace :=
  let vgRes := deleteVGPhase c groupID
  match vgRes.1, vgName with
  | Except.error e, _ => (Except.error e, ⟨vgRes.2.1, vgRes.2.2, [], []⟩)
  | Except.ok _, none =>
      (Except.error DelErr.missingVGName, ⟨vgRes.2.1, vgRes.2.2, [], []⟩)
  | Except.ok _, some nm =>
    let ppRes := deletePPPhase c nm
    match ppRes.1 with
    | Except.error e => (Except.error e, ⟨vgRes.2.1, vgRes.2.2, ppRes.2, []⟩)
    | Except.ok _ =>
      let rrRes := deleteRRPhase c nm
      match rrRes.1 with
      | Except.error e =>
          (Except.error e, ⟨vgRes.2.1, vgRes.2.2, ppRes.2, rrRes.2⟩)
      | Except.ok _ => (Except.ok (), ⟨vgRes.2.1, vgRes.2.2, ppRes.2, rrRes.2⟩)

theorem deletePPPhase_guard (c : SPGClient) (name : GoStr)
    (hne : (deletePPPhase c name).2 ≠ []) :
    (c.getProtectionPolicyByName (ppName name)).1.volumes = [] ∧
    (c.getProtectionPolicyByName (ppName name)).1.volumeGroups = [] := by
  by_cases h1 : hardFail (c.getProtectionPolicyByName (ppName name)).2 = true
  · exact absurd (by simp [deletePPPhase, h1]) hne
  · by_cases h2 : (c.getProtectionPolicyByName (ppName name)).1.id ≠ [] ∧
        (c.getProtectionPolicyByName (ppName name)).1.volumes = [] ∧
        (c.getProtectionPolicyByName (ppName name)).1.volumeGroups = []
    · exact ⟨h2.2.1, h2.2.2⟩
    · exact absurd (by simp [deletePPPhase, h1, h2]) hne

theorem deletePPPhase_soft (c : SPGClient) (name : GoStr)
    (h1 : hardFail (c.getProtectionPolicyByName (ppName name)).2 = false)
    (h2 : hardFail (c.deleteProtectionPolicy
      (c.getProtectionPolicyByName (ppName name)).1.id) = false) :
    (deletePPPhase c name).1 = Except.ok () := by
  by_cases h3 : (c.getProtectionPolicyByName (ppName name)).1.id ≠ [] ∧
      (c.getProtectionPolicyByName (ppName name)).1.volumes = [] ∧
      (c.getProtectionPolicyByName (ppName name)).1.volumeGroups = []
  · simp [deletePPPhase, h1, h2, h3]
  · simp [deletePPPhase, h1, h3]

theorem deleteRRPhase_guard (c : SPGClient) (name : GoStr)
    (hne : (deleteRRPhase c name).2 ≠ []) :
    (c.getReplicationRuleByName (rrName name)).1.protectionPolicies = [] := by
  by_cases h1 : hardFail (c.getReplicationRuleByName (rrName name)).2 = true
  · exact absurd (by simp [deleteRRPhase, h1]) hne
  · by_cases h2 : (c.getReplicationRuleByName (rrName name)).1.id ≠ [] ∧
        (c.getReplicationRuleByName (rrName name)).1.protectionPolicies = []
    · exact h2.2
    · exact absurd (by simp [deleteRRPhase, h1, h2]) hne

theorem deleteRRPhase_soft (c : SPGClient) (name : GoStr)
    (h1 : hardFail (c.getReplicationRuleByName (rrName name)).2 = false)
    (h2 : hardFail (c.deleteReplicationRule
      (c.getReplicationRuleByName (rrName name)).1.id) = false) :
    (deleteRRPhase c name).1 = Except.ok () := by
  by_cases h3 : (c.getReplicationRuleByName (rrName name)).1.id ≠ [] ∧
      (c.getReplicationRuleByName (rrName name)).1.protectionPolicies = []
  · simp [deleteRRPhase, h1, h2, h3]
  · simp [deleteRRPhase, h1, h3]

theorem deleteVGPhase_soft (c : SPGClient) (gid : GoStr)
    (h1 : hardFail (c.getVolumeGroup gid).2 = false)
    (h2 : hardFail (c.modifyVolumeGroup gid) = false)
    (h3 : hardFail (c.deleteVolumeGroup gid) = false) :
    (deleteVGPhase c gid).1 = Except.ok () := by
  by_cases h4 : (c.getVolumeGroup gid).1.id ≠ []
  · by_cases h5 : (c.getVolumeGroup gid).1.protectionPolicyID ≠ []
    · simp [deleteVGPhase, h1, h2, h3, h4, h5]
    · simp [deleteVGPhase, h1, h3, h4, h5]
  · simp [deleteVGPhase, h1, h4]

/-- C7: the protection policy is deleted only when it owns zero volumes
and zero volume groups (so a policy still referencing a volume group is
never deleted, even after the group itself was independently deleted), the
replication rule is deleted only when zero protection policies reference
it, and every step treats a not-found response (and any nil or
non-`APIError` result) as success, so a run in which no call hard-fails
returns success. -/
theorem deleteSPG_guards :
    (∀ (c : SPGClient) (gid name : GoStr),
      ((deleteStorageProtectionGroup c gid (some name)).2.deletedPolicies ≠ [] →
        (c.getProtectionPolicyByName (ppName name)).1.volumes = [] ∧
        (c.getProtectionPolicyByName (ppName name)).1.volumeGroups = []) ∧
      ((deleteStorageProtectionGroup c gid (some name)).2.deletedRules ≠ [] →
        (c.getReplicationRuleByName (rrName name)).1.protectionPolicies = [])) ∧
    (∀ (c : SPGClient) (gid name : GoStr),
      hardFail (c.getVolumeGroup gid).2 = false →
      hardFail (c.modifyVolumeGroup gid) = false →
      hardFail (c.deleteVolumeGroup gid) = false →
      hardFail (c.getProtectionPolicyByName (ppName name)).2 = false →
      hardFail (c.deleteProtectionPolicy
        (c.getProtectionPolicyByName (ppName name)).1.id) = false →
      hardFail (c.getReplicationRuleByName (rrName name)).2 = false →
      hardFail (c.deleteReplicationRule
        (c.getReplicationRuleByName (rrName name)).1.id) = false →
      (deleteStorageProtectionGroup c gid (some name)).1 = Except.ok ()) := by
  constructor
  · intro c gid name
    simp only [deleteStorageProtectionGroup]
    cases h1 : (deleteVGPhase c gid).1 with
    | error e => exact ⟨fun h => absurd rfl h, fun h => absurd rfl h⟩
    | ok u =>
      dsimp only
      cases h2 : (deletePPPhase c name).1 with
      | error e =>
        exact ⟨fun h => deletePPPhase_guard c name h, fun h => absurd rfl h⟩
      | ok u2 =>
        dsimp only
        cases h3 : (deleteRRPhase c name).1 with
        | error e =>
          exact ⟨fun h => deletePPPhase_guard c name h,
            fun h => deleteRRPhase_guard c name h⟩
        | ok u3 =>
          exact ⟨fun h => deletePPPhase_guard c name h,
            fun h => deleteRRPhase_guard c name h⟩
  · intro c gid name h1 h2 h3 h4 h5 h6 h7
    have hvg1 := deleteVGPhase_soft c gid h1 h2 h3
    have hpp1 := deletePPPhase_soft c name h4 h5
    have hrr1 := deleteRRPhase_soft c name h6 h7
    simp only [deleteStorageProtectionGroup, hvg1, hpp1, hrr1]

/-- Deletion client where the volume group was already independently
deleted (NotFound), the protection policy still references one volume
group, the rule is still referenced by one policy, and the delete calls
answer not-found. -/
def spgClientW : SPGClient :=
  { getVolumeGroup := fun _ => (⟨[], []⟩, some ⟨true, true⟩)
    modifyVolumeGroup := fun _ => none
    deleteVolumeGroup := fun _ => some ⟨true, true⟩
    getProtectionPolicyByName := fun _ => (⟨gs "pp-1", [], [gs "vg-1"]⟩, none)
    deleteProtectionPolicy := fun _ => none
    getReplicationRuleByName := fun _ => (⟨gs "rr-1", [gs "pp-1"]⟩, none)
    deleteReplicationRule := fun _ => none }

/-- Deletion client where the group exists and the policy and rule are
unreferenced, so both get deleted. -/
def spgClientW2 : SPGClient :=
  { getVolumeGroup := fun _ => (⟨gs "vg-1", gs "pol-1"⟩, none)
    modifyVolumeGroup := fun _ => none
    deleteVolumeGroup := fun _ => none
    getProtectionPolicyByName := fun _ => (⟨gs "pp-1", [], []⟩, none)
    deleteProtectionPolicy := fun _ => none
    getReplicationRuleByName := fun _ => (⟨gs "rr-1", []⟩, none)
    deleteReplicationRule := fun _ => none }

/-- Witness for C7: a run over not-found responses and a policy still
referencing a volume group succeeds without deleting the policy, and a run
that does delete the policy and rule implies they were unreferenced. -/
theorem deleteSPG_guards_witness :
    (deleteStorageProtectionGroup spgClientW (gs "group-1") (some (gs "grp"))).1 =
      Except.ok () ∧
    ((spgClientW2.getProtectionPolicyByName (ppName (gs "grp"))).1.volumes = [] ∧
      (spgClientW2.getProtectionPolicyByName (ppName (gs "grp"))).1.volumeGroups = []) ∧
    (spgClientW2.getReplicationRuleByName (rrName (gs "grp"))).1.protectionPolicies
      = [] :=
  ⟨deleteSPG_guards.2 spgClientW (gs "group-1") (gs "grp") (by decide) (by decide)
      (by decide) (by decide) (by decide) (by decide) (by decide),
    (deleteSPG_guards.1 spgClientW2 (gs "group-1") (gs "grp")).1 (by decide),
    (deleteSPG_guards.1 spgClientW2 (gs "group-1") (gs "grp")).2 (by decide)⟩

/-! ## Connectivity probe: `IsIOInProgress` and the IO-activity check -/

/-- One sample of a performance-metrics series as the probe reads it:
`TotalIops` (a float, modelled exactly as a rational) and the parsed
timestamp in unix seconds (`none` models a timestamp string that
`time.Parse` rejects). -/
structure MetricsEntry where
  totalIops : ℚ
  timestamp : Option Int
deriving DecidableEq

/-- Embedding of `checkIfEntryIsLatest`: an unparsable timestamp is not
latest; otherwise the sample is latest when it is less than 60 seconds
older than the current time. -/
def checkIfEntryIsLatest (now : Int) (ts : Option Int) : Bool :=
  match ts with
  | none => false
  | some t => decide (now - t < 60)

/-- The scan loop of `IsIOInProgress`
(`for i := len(resp)-1; i >= len(resp)-4 && i >= 0; i--`): some sample
among the last four entries has positive `TotalIops` and a fresh
timestamp. -/
def lastFourHasFreshIops (now : Int) (resp : List MetricsEntry) : Bool :=
  (resp.drop (resp.length - 4)).any
    (fun e => decide (0 < e.totalIops) && checkIfEntryIsLatest now e.timestamp)

/-- Errors of `Service.IsIOInProgress`: the wrap of a failed metrics call,
and the `no IOInProgress` result (both plain `fmt.Errorf` errors with
distinct messages). -/
inductive IOCheckErr where
  | metricsFailed
  | noIOInProgress
deriving DecidableEq

/-- Embedding of `Service.IsIOInProgress`: `vm` and `fm` are the results
of `PerformanceMetricsByVolume` and `PerformanceMetricsByFileSystem` for
this volume (series plus optional error); the `scsi` protocol selects the
per-volume series and every other protocol the per-filesystem series. A
nil return models the Go function returning a nil error (IO found). -/
def isIOInProgressCheck (now : Int)
    (vm : List MetricsEntry × Option GoAPIError)
    (fm : List MetricsEntry × Option GoAPIError)
    (protocol : GoStr) : Except IOCheckErr Unit :=
  if protocol = gs "scsi" then
    match vm.2 with
    | some _ => Except.error IOCheckErr.metricsFailed
    | none =>
        if lastFourHasFreshIops now vm.1 then Except.ok ()
        else Except.error IOCheckErr.noIOInProgress
  else
    match fm.2 with
    | some _ => Except.error IOCheckErr.metricsFailed
    | none =>
        if lastFourHasFreshIops now fm.1 then Except.ok ()
        else Except.error IOCheckErr.noIOInProgress

theorem mem_drop_iff_getElem {α : Type} (xs : List α) (k : Nat) (e : α) :
    e ∈ xs.drop k ↔ ∃ i, k ≤ i ∧ i < xs.length ∧ xs[i]? = some e := by
  constructor
  · intro hm
    obtain ⟨j, hj, hget⟩ := List.getElem_of_mem hm
    have hq : (xs.drop k)[j]? = some e := by
      rw [List.getElem?_eq_getElem hj, hget]
    rw [List.getElem?_drop] at hq
    obtain ⟨hlt, _⟩ := List.getElem?_eq_some.mp hq
    exact ⟨k + j, Nat.le_add_right k j, hlt, hq⟩
  · rintro ⟨i, hk, hlen, hget⟩
    have hq : (xs.drop k)[i - k]? = some e := by
      rw [List.getElem?_drop]
      have h2 : k + (i - k) = i := by omega
      rw [h2]
      exact hget
    exact List.getElem?_mem hq

/-- C6: the probe of one volume queries the per-volume series when the
protocol is `scsi` and the per-filesystem series otherwise, and (when the
metrics call succeeds) reports IO in progress exactly when at least one of
the most recent four samples of the selected series has positive
`TotalIops` and a parsed timestamp less than 60 seconds older than the
current time. -/
theorem isIOInProgress_iff (now : Int)
    (vm fm : List MetricsEntry × Option GoAPIError) (protocol : GoStr)
    (hv : vm.2 = none) (hf : fm.2 = none) :
    (isIOInProgressCheck now vm fm protocol = Except.ok () ↔
      ∃ i, (if protocol = gs "scsi" then vm.1 else fm.1).length - 4 ≤ i ∧
        i < (if protocol = gs "scsi" then vm.1 else fm.1).length ∧
        ∃ e, (if protocol = gs "scsi" then vm.1 else fm.1)[i]? = some e ∧
          0 < e.totalIops ∧ ∃ t, e.timestamp = some t ∧ now - t < 60) := by
  have hscan : ∀ resp : List MetricsEntry, lastFourHasFreshIops now resp = true ↔
      ∃ i, resp.length - 4 ≤ i ∧ i < resp.length ∧
        ∃ e, resp[i]? = some e ∧ 0 < e.totalIops ∧
          ∃ t, e.timestamp = some t ∧ now - t < 60 := by
    intro resp
    rw [lastFourHasFreshIops, List.any_eq_true]
    constructor
    · rintro ⟨e, hmem, hcond⟩
      obtain ⟨i, hk, hlen, hget⟩ := (mem_drop_iff_getElem resp _ e).mp hmem
      rw [Bool.and_eq_true, decide_eq_true_eq] at hcond
      obtain ⟨hio, hlatest⟩ := hcond
      cases hts : e.timestamp with
      | none =>
        simp only [checkIfEntryIsLatest, hts] at hlatest
        cases hlatest
      | some t =>
        simp only [checkIfEntryIsLatest, hts, decide_eq_true_eq] at hlatest
        exact ⟨i, hk, hlen, e, hget, hio, t, hts, hlatest⟩
    · rintro ⟨i, hk, hlen, e, hget, hio, t, hts, hlt⟩
      refine ⟨e, (mem_drop_iff_getElem resp _ e).mpr ⟨i, hk, hlen, hget⟩, ?_⟩
      rw [Bool.and_eq_true, decide_eq_true_eq]
      exact ⟨hio, by simp only [checkIfEntryIsLatest, hts, decide_eq_true_eq]; exact hlt⟩
  by_cases hp : protocol = gs "scsi"
  · rw [isIOInProgressCheck, if_pos hp, hv]
    simp only [if_pos hp]
    constructor
    · intro hok
      by_cases hs : lastFourHasFreshIops now vm.1 = true
      · exact (hscan vm.1).mp hs
      · rw [if_neg (by simpa using hs)] at hok; cases hok
    · intro hex
      rw [if_pos ((hscan vm.1).mpr hex)]
  · rw [isIOInProgressCheck, if_neg hp, hf]
    simp only [if_neg hp]
    constructor
    · intro hok
      by_cases hs : lastFourHasFreshIops now fm.1 = true
      · exact (hscan fm.1).mp hs
      · rw [if_neg (by simpa using hs)] at hok; cases hok
    · intro hex
      rw [if_pos ((hscan fm.1).mpr hex)]

/-- The six-sample series used by the probe witness: entries 2 and 4 carry
positive IOPS with fresh timestamps (the shape of the repository's own
fixtures). -/
def metricsW : List MetricsEntry :=
  [⟨0, none⟩, ⟨0, none⟩, ⟨5, some 990⟩, ⟨0, some 990⟩, ⟨4, some 990⟩, ⟨0, none⟩]

/-- Witness for C6: with `now = 1000`, the scsi probe over `metricsW`
reports IO in progress, exhibited at index 4. -/
theorem isIOInProgress_iff_witness :
    isIOInProgressCheck 1000 (metricsW, none) ([], none) (gs "scsi") =
      Except.ok () :=
  (isIOInProgress_iff 1000 (metricsW, none) ([], none) (gs "scsi") rfl rfl).mpr
    ⟨4, by decide, by decide, ⟨4, some 990⟩, by simp [metricsW], by decide, 990, rfl,
      by decide⟩

/-- The handle fields the IO-activity check reads from a parsed volume ID
(`LocalUUID`, `LocalArrayGlobalID`, `Protocol`). -/
structure HandleFields where
  localUUID : GoStr
  localArrayGlobalID : GoStr
  protocol : GoStr
deriving DecidableEq

/-- Environment of the IO-activity check: the volume-ID parser (whose
error value the loop discards), the registry lookup `GetOneArray` (`none`
models a failed lookup), the per-volume metrics calls of the array
client, and the current time. -/
structure ProbeEnv where
  now : Int
  parse : GoStr → HandleFields × Option Unit
  getOneArray : GoStr → Option Unit
  perfMetricsByVolume : GoStr → List MetricsEntry × Option GoAPIError
  perfMetricsByFileSystem : GoStr → List MetricsEntry × Option GoAPIError

/-- How the IO-activity portion of `ValidateVolumeHostConnectivity` ends
for one array global ID: an "invalid globalId" error, the error from a
failed `GetOneArray` lookup, or a normal reply carrying `IosInProgress`. -/
inductive VVHCOutcome where
  | invalidGlobalID
  | arrayLookupFailed
  | done (iosInProgress : Bool)
deriving DecidableEq

/-- Embedding of the per-volume loop of
`Service.ValidateVolumeHostConnectivity` (the IO-activity check for one
global ID): parse each volume ID discarding the parse error, fail on a
global-ID mismatch or a registry miss, probe the volume, report success
with `IosInProgress = true` on the first positive probe, and treat every
probe error as a negative result, continuing with the next volume. -/
def ioActivityCheck (env : ProbeEnv) (globalID : GoStr) :
    List GoStr → VVHCOutcome
  | [] => VVHCOutcome.done false
  | volID :: rest =>
    let f := (env.parse volID).1
    if f.localArrayGlobalID ≠ globalID then VVHCOutcome.invalidGlobalID
    else
      match env.getOneArray globalID with
      | none => VVHCOutcome.arrayLookupFailed
      | some _ =>
        match isIOInProgressCheck env.now (env.perfMetricsByVolume f.localUUID)
            (env.perfMetricsByFileSystem f.localUUID) f.protocol with
        | Except.ok _ => VVHCOutcome.done true
        | Except.error _ => ioActivityCheck env globalID rest

/-- Probe environment in which the single volume's metrics call fails with
a genuine (non-NotFound, non-deadline) array error. -/
def probeEnvW : ProbeEnv :=
  { now := 1000
    parse := fun _ => (⟨gs "vol-1", gs "PSabc", gs "scsi"⟩, none)
    getOneArray := fun _ => some ()
    perfMetricsByVolume := fun _ => ([], some ⟨true, false⟩)
    perfMetricsByFileSystem := fun _ => ([], none) }

/-- Counterexample for C5: the volume's probe fails with a genuine array
error (not a deadline), yet the whole check completes successfully with a
clean all-negative reply — the error neither terminates the check as an
error nor stays distinguishable from the no-IO result. -/
theorem ioActivityCheck_swallows_error_counterexample :
    isIOInProgressCheck 1000 ([], some ⟨true, false⟩) ([], none) (gs "scsi") =
      Except.error IOCheckErr.metricsFailed ∧
    ioActivityCheck probeEnvW (gs "PSabc") [gs "vol-1/PSabc/scsi"] =
      VVHCOutcome.done false := by
  exact ⟨rfl, rfl⟩

/-- C5 (amended): an error from a per-volume IO probe (including genuine
array failures) does not terminate the check and is not surfaced: the
volume is treated as having no IO in progress and the loop continues with
the remaining volumes, an empty remainder yielding the clean negative
reply. Only a global-ID mismatch or a failed registry lookup aborts the
whole check with an error. -/
theorem ioActivityCheck_error_continues (env : ProbeEnv) (gid volID : GoStr)
    (rest : List GoStr) (er : IOCheckErr)
    (hmatch : ((env.parse volID).1).localArrayGlobalID = gid)
    (hfound : env.getOneArray gid = some ())
    (herr : isIOInProgressCheck env.now
        (env.perfMetricsByVolume ((env.parse volID).1).localUUID)
        (env.perfMetricsByFileSystem ((env.parse volID).1).localUUID)
        ((env.parse volID).1).protocol = Except.error er) :
    ioActivityCheck env gid (volID :: rest) = ioActivityCheck env gid rest ∧
    ioActivityCheck env gid [] = VVHCOutcome.done false := by
  constructor
  · rw [ioActivityCheck]
    simp only [hmatch, ne_eq, not_true_eq_false, if_false, hfound, herr]
  · rfl

/-- Witness for the amended C5: in `probeEnvW` the erroring probe is
skipped and the overall result is the clean negative reply. -/
theorem ioActivityCheck_error_continues_witness :
    ioActivityCheck probeEnvW (gs "PSabc") [gs "vol-1/PSabc/scsi"] =
      ioActivityCheck probeEnvW (gs "PSabc") [] ∧
    ioActivityCheck probeEnvW (gs "PSabc") [] = VVHCOutcome.done false :=
  ioActivityCheck_error_continues probeEnvW (gs "PSabc") (gs "vol-1/PSabc/scsi")
    [] IOCheckErr.metricsFailed (by decide) rfl rfl

/-! ## Array registry: `GetPowerStoreArrays` and the `Locker` -/

/-- The configuration fields of a `PowerStoreArray` that the loading loop
reads (credentials, NAS name and the opaque client handle are omitted;
none of them influences which array becomes the default). -/
structure PowerStoreArrayCfg where
  endpoint : GoStr
  globalID : GoStr
  isDefault : Bool
deriving DecidableEq

/-- Oracles of the loading loop: `common.GetIPListFromString` and whether
`gopowerstore.NewClientWithArgs` succeeds for an array's settings. -/
structure ArraysEnv where
  getIPList : GoStr → Option GoStr
  clientOk : PowerStoreArrayCfg → Bool

/-- The regular expression `^[0-9.]*$` used on the FQDN fallback path. -/
def isNumDotsOnly (s : GoStr) : Bool :=
  s.all (fun c => c.isDigit || c = '.')

/-- The IP-extraction step of the loading loop: take the first IP found in
the endpoint; otherwise fall back to the third `/`-field of the endpoint
URL, rejecting it when it looks numeric (`none` models the
`can't get ips from endpoint` error). -/
def endpointIP (getIPList : GoStr → Option GoStr) (endpoint : GoStr) :
    Option GoStr :=
  match getIPList endpoint with
  | some ip => some ip
  | none =>
    let sub := splitOnChar '/' endpoint
    if 2 < sub.length then
      if isNumDotsOnly (sub.getD 2 []) then none else some (sub.getD 2 [])
    else none

/-- The error paths of `GetPowerStoreArrays` after unmarshalling: a
missing GlobalID, a failed client construction, or an endpoint without a
usable IP. -/
inductive ArraysErr where
  | noGlobalID
  | clientFailure
  | badEndpoint
deriving DecidableEq

/-- The three outputs of `GetPowerStoreArrays`: the GlobalID-indexed array
map, the IP-to-GlobalID `mapper`, and the chosen default array. -/
structure ArraysOut where
  arrayMap : List (GoStr × PowerStoreArrayCfg)
  mapper : List (GoStr × GoStr)
  defaultArray : Option PowerStoreArrayCfg
deriving DecidableEq

/-- The per-array loop of `GetPowerStoreArrays`: a nil entry ends the loop
early with the accumulated maps, a missing GlobalID or failed client or
bad endpoint aborts with an error, and the first array flagged `IsDefault`
replaces the provisional default. -/
def getArraysLoop (env : ArraysEnv) :
    List (Option PowerStoreArrayCfg) → List (GoStr × PowerStoreArrayCfg) →
    List (GoStr × GoStr) → Option PowerStoreArrayCfg → Bool →
    Except ArraysErr ArraysOut
  | [], am, mp, dflt, _ => Except.ok ⟨am, mp, dflt⟩
  | none :: _, am, mp, dflt, _ => Except.ok ⟨am, mp, dflt⟩
  | some a :: rest, am, mp, dflt, found =>
    if a.globalID = [] then Except.error ArraysErr.noGlobalID
    else if env.clientOk a = false then Except.error ArraysErr.clientFailure
    else
      match endpointIP env.getIPList a.endpoint with
      | none => Except.error ArraysErr.badEndpoint
      | some ip =>
        let am2 := am ++ [(a.globalID, a)]
        let mp2 := mp ++ [(ip, a.globalID)]
        if a.isDefault && !found then getArraysLoop env rest am2 mp2 (some a) true
        else getArraysLoop env rest am2 mp2 dflt found

/-- Embedding of `GetPowerStoreArrays` from the unmarshalled configuration
onward (`cfgArrays` is `cfg.Arrays`; file reading and YAML parsing are
external): an empty list yields empty maps and a nil default, otherwise
the first array is the provisional default and the loop runs. -/
def getPowerStoreArrays (env : ArraysEnv)
    (cfgArrays : List (Option PowerStoreArrayCfg)) : Except ArraysErr ArraysOut :=
  if cfgArrays.length = 0 then Except.ok ⟨[], [], none⟩
  else getArraysLoop env cfgArrays [] [] (cfgArrays.headD none) false

/-- The `Locker` fields replaced by `UpdateArrays` (the package-level
`IPToArray` index is threaded separately, as in the source). -/
structure LockerState where
  arrays : List (GoStr × PowerStoreArrayCfg)
  defaultArray : Option PowerStoreArrayCfg
deriving DecidableEq

/-- Embedding of `Locker.DefaultArray`. -/
def lockerDefaultArray (s : LockerState) : Option PowerStoreArrayCfg :=
  s.defaultArray

/-- Embedding of `Locker.UpdateArrays`: reload the configuration and, on
success, replace the array map, the `IPToArray` index and the default
array wholesale; on failure, leave the previous state untouched by
returning the error. -/
def updateArrays (env : ArraysEnv) (cfgArrays : List (Option PowerStoreArrayCfg))
    (_s : LockerState) (_ipIndex : List (GoStr × GoStr)) :
    Except ArraysErr (LockerState × List (GoStr × GoStr)) :=
  match getPowerStoreArrays env cfgArrays with
  | Except.error e => Except.error e
  | Except.ok out => Except.ok (⟨out.arrayMap, out.defaultArray⟩, out.mapper)

/-- Entry-wise success of the loading loop for one configured array. -/
def arrayLoads (env : ArraysEnv) (a : PowerStoreArrayCfg) : Prop :=
  a.globalID ≠ [] ∧ env.clientOk a = true ∧
    endpointIP env.getIPList a.endpoint ≠ none

instance (env : ArraysEnv) (a : PowerStoreArrayCfg) :
    Decidable (arrayLoads env a) := by
  unfold arrayLoads
  infer_instance

theorem getArraysLoop_no_default (env : ArraysEnv)
    (l : List PowerStoreArrayCfg) (am : List (GoStr × PowerStoreArrayCfg))
    (mp : List (GoStr × GoStr)) (dflt : Option PowerStoreArrayCfg)
    (hok : ∀ b ∈ l, arrayLoads env b)
    (hnd : ∀ b ∈ l, b.isDefault = false) :
    ∃ am2 mp2, getArraysLoop env (l.map some) am mp dflt false =
      Except.ok ⟨am2, mp2, dflt⟩ := by
  induction l generalizing am mp with
  | nil => exact ⟨am, mp, rfl⟩
  | cons a rest ih =>
    obtain ⟨hg, hc, hi⟩ := hok a (List.mem_cons_self a rest)
    have hd := hnd a (List.mem_cons_self a rest)
    rw [List.map_cons, getArraysLoop, if_neg hg, if_neg (by rw [hc]; simp)]
    cases hip : endpointIP env.getIPList a.endpoint with
    | none => exact absurd hip hi
    | some ip =>
      simp only [hd, Bool.false_and, Bool.false_eq_true, if_false]
      exact ih (am ++ [(a.globalID, a)]) (mp ++ [(ip, a.globalID)])
        (fun b hb => hok b (List.mem_cons_of_mem a hb))
        (fun b hb => hnd b (List.mem_cons_of_mem a hb))

/-- C9: for a configuration listing at least one array in which every
array loads successfully and none is flagged `IsDefault`, loading returns
the first array in configuration order as the default, and `UpdateArrays`
followed by `DefaultArray` yields that array. -/
theorem getPowerStoreArrays_default_first (env : ArraysEnv)
    (a : PowerStoreArrayCfg) (rest : List PowerStoreArrayCfg)
    (s : LockerState) (ipIndex : List (GoStr × GoStr))
    (hok : ∀ b ∈ a :: rest, arrayLoads env b)
    (hnd : ∀ b ∈ a :: rest, b.isDefault = false) :
    (∃ am mp, getPowerStoreArrays env ((a :: rest).map some) =
      Except.ok ⟨am, mp, some a⟩) ∧
    (∃ s2 mp, updateArrays env ((a :: rest).map some) s ipIndex =
      Except.ok (s2, mp) ∧ lockerDefaultArray s2 = some a) := by
  have hmain : ∃ am mp, getPowerStoreArrays env ((a :: rest).map some) =
      Except.ok ⟨am, mp, some a⟩ := by
    rw [getPowerStoreArrays, if_neg (by simp)]
    simp only [List.map_cons, List.headD_cons]
    exact getArraysLoop_no_default env (a :: rest) [] [] (some a) hok hnd
  refine ⟨hmain, ?_⟩
  obtain ⟨am, mp, heq⟩ := hmain
  refine ⟨⟨am, some a⟩, mp, ?_, rfl⟩
  rw [updateArrays, heq]

/-- A two-array configuration with no default flag set. -/
def cfgW : List PowerStoreArrayCfg :=
  [⟨gs "https://1.2.3.4/api/rest", gs "PSfirst00001", false⟩,
    ⟨gs "https://5.6.7.8/api/rest", gs "PSsecond0002", false⟩]

/-- Registry environment for the witness: `GetIPListFromString` finds the
endpoint IPs and client construction always succeeds. -/
def arraysEnvW : ArraysEnv :=
  { getIPList := fun e =>
      if e = gs "https://1.2.3.4/api/rest" then some (gs "1.2.3.4")
      else if e = gs "https://5.6.7.8/api/rest" then some (gs "5.6.7.8")
      else none
    clientOk := fun _ => true }

/-- Witness for C9: loading `cfgW` makes the first array the default and
`DefaultArray` returns it after `UpdateArrays`. -/
theorem getPowerStoreArrays_default_first_witness :
    (∃ am mp, getPowerStoreArrays arraysEnvW (cfgW.map some) =
      Except.ok ⟨am, mp, some ⟨gs "https://1.2.3.4/api/rest", gs "PSfirst00001", false⟩⟩) ∧
    (∃ s2 mp, updateArrays arraysEnvW (cfgW.map some) ⟨[], none⟩ [] =
      Except.ok (s2, mp) ∧
      lockerDefaultArray s2 = some ⟨gs "https://1.2.3.4/api/rest", gs "PSfirst00001", false⟩) :=
  getPowerStoreArrays_default_first arraysEnvW
    ⟨gs "https://1.2.3.4/api/rest", gs "PSfirst00001", false⟩
    [⟨gs "https://5.6.7.8/api/rest", gs "PSsecond0002", false⟩]
    ⟨[], none⟩ [] (by decide) (by decide)

end CsiPowerStore
